import Mathlib

/-!
Verification of the tutorial app's database layer and MCP handlers.

The definitions below are a shallow embedding of the Python sources:
  * `src/tutorial_app/database/models.py`    — `User`, `Post` and their column declarations
  * `src/tutorial_app/database/connection.py` — the `db_operation` decorator
  * `src/tutorial_app/database/seed.py`       — `_seed_data_if_needed` / `seed_database`
  * `src/tutorial_app/mcp_server.py`          — the resource/tool handler bodies

Stateful code is embedded by explicit state passing over a `Store` (the
SQLite database / SQLAlchemy session view); fallible code returns an
`OpResult` carrying the session state at the moment of the raise.
-/

namespace Tutorial

/-! ## Data model (models.py) -/

/-- A row of the `users` table. `created_at` holds the value that
`datetime.isoformat()` would render, supplied as an input since
`datetime.utcnow` is nondeterministic. -/
structure User where
  id : Nat
  username : String
  email : String
  created_at : String
deriving DecidableEq, Repr

/-- A row of the `posts` table.  `user_id` is an `Option` because the
column is declared without `nullable=False` in models.py. -/
structure Post where
  id : Nat
  title : String
  content : String
  created_at : String
  user_id : Option Nat
deriving DecidableEq, Repr

/-- The database state: the two tables. -/
structure Store where
  users : List User
  posts : List Post
deriving DecidableEq, Repr

/-- A column declaration as written in models.py.  SQLAlchemy defaults
`nullable` to `true` unless the column is a primary key or declares
`nullable=False` explicitly. -/
structure ColumnSpec where
  name : String
  nullable : Bool
  primaryKey : Bool
  unique : Bool
  foreignKey : Option String
deriving DecidableEq, Repr

/-- The `users` table columns, transcribed from `class User` in models.py. -/
def userColumns : List ColumnSpec :=
  [⟨"id", false, true, false, none⟩,
   ⟨"username", false, false, true, none⟩,
   ⟨"email", false, false, true, none⟩,
   ⟨"created_at", true, false, false, none⟩]

/-- The `posts` table columns, transcribed from `class Post` in models.py.
`user_id = Column(Integer, ForeignKey("users.id"))` declares neither
`nullable=False` nor `primary_key=True`, so it is nullable. -/
def postColumns : List ColumnSpec :=
  [⟨"id", false, true, false, none⟩,
   ⟨"title", false, false, false, none⟩,
   ⟨"content", false, false, false, none⟩,
   ⟨"created_at", true, false, false, none⟩,
   ⟨"user_id", true, false, false, some "users.id"⟩]

/-! ## Python-style JSON serialization (`json.dumps(..., ensure_ascii=False)`) -/

inductive Json where
  | bool (b : Bool)
  | num (n : Int)
  | str (s : String)
  | arr (elems : List Json)
  | obj (fields : List (String × Json))
deriving Repr

def concatAll : List (List α) → List α
  | [] => []
  | x :: xs => x ++ concatAll xs

def hexDigit (n : Nat) : Char :=
  if n < 10 then Char.ofNat (48 + n) else Char.ofNat (87 + n)

/-- Escaping performed by `json.dumps` with `ensure_ascii=False`. -/
def escChar (c : Char) : List Char :=
  if c = '"' then ['\\', '"']
  else if c = '\\' then ['\\', '\\']
  else if c = Char.ofNat 10 then ['\\', 'n']
  else if c = Char.ofNat 9 then ['\\', 't']
  else if c = Char.ofNat 13 then ['\\', 'r']
  else if c = Char.ofNat 8 then ['\\', 'b']
  else if c = Char.ofNat 12 then ['\\', 'f']
  else if c.toNat < 32 then
    ['\\', 'u', '0', '0', hexDigit (c.toNat / 16), hexDigit (c.toNat % 16)]
  else [c]

def quoteStr (s : String) : String :=
  ⟨'"' :: concatAll (s.data.map escChar) ++ ['"']⟩

mutual

/-- Translation of `json.dumps(v, ensure_ascii=False)` for the value shapes the app builds
(default separators: item separator is a comma and a space, key separator
is a colon and a space). -/
def dumpsJ : Json → String
  | .bool true => "true"
  | .bool false => "false"
  | .num n => toString n
  | .str s => quoteStr s
  | .arr xs => "[" ++ dumpsArr xs ++ "]"
  | .obj fs => "\x7b" ++ dumpsObj fs ++ "\x7d"

def dumpsArr : List Json → String
  | [] => ""
  | [x] => dumpsJ x
  | x :: y :: rest => dumpsJ x ++ ", " ++ dumpsArr (y :: rest)

def dumpsObj : List (String × Json) → String
  | [] => ""
  | [(k, v)] => quoteStr k ++ ": " ++ dumpsJ v
  | (k, v) :: f :: rest => quoteStr k ++ ": " ++ dumpsJ v ++ ", " ++ dumpsObj (f :: rest)

end

/-! ## The `db_operation` decorator (connection.py) -/

/-- A Python value as returned by the wrapped functions: the handlers
return JSON strings, the seeder returns a boolean, and `None` is the
remaining case the wrapper distinguishes. -/
inductive PyVal where
  | none
  | bool (b : Bool)
  | str (s : String)
deriving DecidableEq, Repr

/-- Outcome of running a wrapped function body against a session: either a
normal return together with the session view after the call, or a raised
exception with message `msg` and the session view at the moment of the
raise (its pending writes included). -/
inductive OpResult where
  | ok (s : Store) (v : PyVal)
  | exc (s : Store) (msg : String)
deriving DecidableEq, Repr

/-- Python `str.strip()` whitespace test (ASCII whitespace). -/
def isSpaceChar (c : Char) : Bool :=
  c = ' ' || c = Char.ofNat 9 || c = Char.ofNat 10 || c = Char.ofNat 13 ||
    c = Char.ofNat 11 || c = Char.ofNat 12

def stripChars (l : List Char) : List Char :=
  ((l.dropWhile isSpaceChar).reverse.dropWhile isSpaceChar).reverse

/-- The wrapper's test
`isinstance(result, str) and (result.strip().startswith(lbrace) or result.strip().startswith("["))`
(with `lbrace` the opening curly bracket), i.e. the stripped string starts
with an opening curly or square bracket. -/
def isJsonLike (s : String) : Bool :=
  match stripChars s.data with
  | [] => false
  | c :: _ => c = Char.ofNat 123 || c = '['

/-- Translation of `json.dumps` applied to the one-field error dict, i.e. the error envelope. -/
def errorJson (m : String) : String :=
  dumpsJ (Json.obj [("error", Json.str m)])

/-- The serialization step of `db_operation` applied to the wrapped
function's return value (the code after the commit): a string that already
looks like JSON is passed through, `None` becomes a bare success object,
and any other value is wrapped as success data. -/
def pyJsonify : PyVal → String
  | .str r =>
      if isJsonLike r then r
      else dumpsJ (Json.obj [("success", Json.bool true), ("data", Json.str r)])
  | .none => dumpsJ (Json.obj [("success", Json.bool true)])
  | .bool b => dumpsJ (Json.obj [("success", Json.bool true), ("data", Json.bool b)])

/-- Translation of `db_operation` when the caller did not supply a session: the wrapper
opens one, runs the body, commits on normal return (a fallible step:
`commit view = some m` models `session.commit()` raising with message `m`,
`none` models success), rolls back on any raise, serializes, and closes.
The returned `Store` is the committed database after the call. -/
def db_operation (commit : Store → Option String) (f : Store → OpResult)
    (db : Store) : Store × String :=
  match f db with
  | .exc _ m => (db, errorJson m)
  | .ok view r =>
    match commit view with
    | some m => (db, errorJson m)
    | none => (view, pyJsonify r)

/-- The always-succeeding commit. -/
def commitOk : Store → Option String := fun _ => none

/-- Translation of `db_operation` when the caller supplied `session=` in kwargs: the
wrapper's local `session` variable stays `None`, so it neither commits,
nor rolls back, nor closes — it only serializes or converts a raise into
an error envelope.  Arguments: the committed database `db` (untouched by
the wrapper in this mode) and the caller's session view `sess`; returns
the committed database, the caller's session view after the call, and the
wrapper's string result. -/
def db_operation_ext (f : Store → OpResult) (db sess : Store) :
    Store × Store × String :=
  match f sess with
  | .exc s m => (db, s, errorJson m)
  | .ok s r => (db, s, pyJsonify r)

/-! ## Basic facts about the serialization -/

theorem dropWhile_append_singleton {p : Char → Bool} {c : Char} (hc : p c = false) :
    ∀ l : List Char, ∃ r, (l ++ [c]).dropWhile p = r ++ [c] := by
  intro l
  induction l with
  | nil => exact ⟨[], by simp [List.dropWhile, hc]⟩
  | cons a as ih =>
    by_cases ha : p a
    · simpa [List.dropWhile, ha] using ih
    · exact ⟨a :: as, by simp [List.dropWhile, ha]⟩

theorem stripChars_cons_of_head {c : Char} (hc : isSpaceChar c = false)
    (l : List Char) : ∃ r, stripChars (c :: l) = c :: r := by
  unfold stripChars
  have h1 : (c :: l).dropWhile isSpaceChar = c :: l := by
    simp [List.dropWhile, hc]
  rw [h1]
  have h2 : (c :: l).reverse = l.reverse ++ [c] := by simp
  rw [h2]
  obtain ⟨r, hr⟩ := dropWhile_append_singleton hc l.reverse
  rw [hr]
  exact ⟨r.reverse, by simp⟩

theorem isJsonLike_of_data {s : String} {l : List Char}
    (h : s.data = Char.ofNat 123 :: l) : isJsonLike s = true := by
  have hs : isSpaceChar (Char.ofNat 123) = false := by decide
  obtain ⟨r, hr⟩ := stripChars_cons_of_head hs l
  simp [isJsonLike, h, hr]

theorem dumpsJ_obj_data (fs : List (String × Json)) :
    ∃ rest, (dumpsJ (Json.obj fs)).data = Char.ofNat 123 :: rest := by
  have h : dumpsJ (Json.obj fs) = "\x7b" ++ dumpsObj fs ++ "\x7d" := by
    simp [dumpsJ]
  refine ⟨(dumpsObj fs ++ "\x7d").data, ?_⟩
  rw [h, String.data_append, String.data_append]
  rfl

/-- Every string the app produces with `json.dumps` of a dict passes the
wrapper's pass-through test. -/
theorem isJsonLike_dumps_obj (fs : List (String × Json)) :
    isJsonLike (dumpsJ (Json.obj fs)) = true := by
  obtain ⟨rest, h⟩ := dumpsJ_obj_data fs
  exact isJsonLike_of_data h

/-! ## Handler bodies (mcp_server.py) -/

def maxUserId : List User → Nat
  | [] => 0
  | u :: us => max u.id (maxUserId us)

def maxPostId : List Post → Nat
  | [] => 0
  | p :: ps => max p.id (maxPostId ps)

/-- Translation of `len(user.posts)`: the posts whose foreign key matches the user. -/
def postCountFor (s : Store) (u : User) : Nat :=
  (s.posts.filter (fun p => p.user_id == some u.id)).length

/-- Translation of `post.author`: the SQLAlchemy relationship resolves the foreign key
against `users.id`; it is `None` when `user_id` is null or dangling. -/
def authorOf (s : Store) (p : Post) : Option User :=
  match p.user_id with
  | some uid => s.users.find? (fun u => u.id == uid)
  | none => none

/-- Message of the AttributeError raised by `post.author.id` when
`post.author` is `None` (apostrophes elided). -/
def noneAttrMsg : String := "NoneType object has no attribute id"

/-- Resolve `post.author` for each post in order, as the handler list
comprehensions do; `none` models the first missing author raising. -/
def resolveAuthors (s : Store) : List Post → Option (List (Post × User))
  | [] => some []
  | p :: ps =>
    match authorOf s p, resolveAuthors s ps with
    | some a, some rest => some ((p, a) :: rest)
    | _, _ => none

def userProfileJson (s : Store) (u : User) : Json :=
  Json.obj [("id", Json.num u.id), ("username", Json.str u.username),
    ("email", Json.str u.email), ("created_at", Json.str u.created_at),
    ("post_count", Json.num (postCountFor s u))]

def authorJson (u : User) : Json :=
  Json.obj [("id", Json.num u.id), ("username", Json.str u.username)]

def postJson (p : Post) (a : User) : Json :=
  Json.obj [("id", Json.num p.id), ("title", Json.str p.title),
    ("content", Json.str p.content), ("created_at", Json.str p.created_at),
    ("author", authorJson a)]

/-- Body of `get_all_users` (resource `users://all`). -/
def get_all_users_body (s : Store) : OpResult :=
  .ok s (.str (dumpsJ (Json.obj [("success", Json.bool true),
    ("users", Json.arr (s.users.map (userProfileJson s)))])))

/-- Body of `get_user_profile`. -/
def get_user_profile_body (user_id : Nat) (s : Store) : OpResult :=
  match s.users.find? (fun u => u.id == user_id) with
  | none => .ok s (.str (dumpsJ (Json.obj [("error",
      Json.str ("User with ID " ++ toString user_id ++ " not found"))])))
  | some u => .ok s (.str (dumpsJ (Json.obj [("success", Json.bool true),
      ("user", userProfileJson s u)])))

/-- Body of `get_all_posts` (resource `posts://all`). -/
def get_all_posts_body (s : Store) : OpResult :=
  match resolveAuthors s s.posts with
  | none => .exc s noneAttrMsg
  | some pairs => .ok s (.str (dumpsJ (Json.obj [("success", Json.bool true),
      ("posts", Json.arr (pairs.map (fun pa => postJson pa.1 pa.2)))])))

/-- Body of `get_post_by_id`. -/
def get_post_by_id_body (post_id : Nat) (s : Store) : OpResult :=
  match s.posts.find? (fun p => p.id == post_id) with
  | none => .ok s (.str (dumpsJ (Json.obj [("error",
      Json.str ("Post with ID " ++ toString post_id ++ " not found"))])))
  | some p =>
    match authorOf s p with
    | none => .exc s noneAttrMsg
    | some a => .ok s (.str (dumpsJ (Json.obj [("success", Json.bool true),
        ("post", postJson p a)])))

/-- Body of the `create_user` tool: duplicate check, insert, flush
(which assigns the next rowid), success JSON. -/
def create_user_body (username email created_at : String) (s : Store) : OpResult :=
  match s.users.find? (fun u => u.username == username || u.email == email) with
  | some _ => .ok s (.str (dumpsJ (Json.obj [("error",
      Json.str "Username or email already exists")])))
  | none =>
    let u : User := ⟨maxUserId s.users + 1, username, email, created_at⟩
    .ok ⟨s.users ++ [u], s.posts⟩ (.str (dumpsJ (Json.obj [("success", Json.bool true),
      ("user", Json.obj [("id", Json.num u.id), ("username", Json.str u.username),
        ("email", Json.str u.email), ("created_at", Json.str u.created_at)])])))

/-- Body of the `create_post` tool: author existence check, insert, flush,
success JSON with the author resolved through the relationship. -/
def create_post_body (title content : String) (user_id : Nat) (created_at : String)
    (s : Store) : OpResult :=
  match s.users.find? (fun u => u.id == user_id) with
  | none => .ok s (.str (dumpsJ (Json.obj [("error",
      Json.str ("User with ID " ++ toString user_id ++ " not found"))])))
  | some u =>
    let p : Post := ⟨maxPostId s.posts + 1, title, content, created_at, some user_id⟩
    .ok ⟨s.users, s.posts ++ [p]⟩ (.str (dumpsJ (Json.obj [("success", Json.bool true),
      ("post", postJson p u)])))

/-! ## SQL LIKE matching (the `ilike` filter of `search_posts`) -/

/-- The ASCII upper-to-lower case table (the case folding SQLite applies
in `LIKE`). -/
def upperToLower : List (Char × Char) :=
  [('A', 'a'), ('B', 'b'), ('C', 'c'), ('D', 'd'), ('E', 'e'), ('F', 'f'),
   ('G', 'g'), ('H', 'h'), ('I', 'i'), ('J', 'j'), ('K', 'k'), ('L', 'l'),
   ('M', 'm'), ('N', 'n'), ('O', 'o'), ('P', 'p'), ('Q', 'q'), ('R', 'r'),
   ('S', 's'), ('T', 't'), ('U', 'u'), ('V', 'v'), ('W', 'w'), ('X', 'x'),
   ('Y', 'y'), ('Z', 'z')]

/-- ASCII lower-casing. -/
def asciiLower (c : Char) : Char :=
  match upperToLower.find? (fun p => p.1 == c) with
  | some p => p.2
  | none => c

def lowerL (l : List Char) : List Char := l.map asciiLower

/-- SQL `LIKE` pattern matching: `%` matches any sequence, `_` any single
character; no escape clause is used by the handler. -/
def likeMatch : List Char → List Char → Bool
  | [], [] => true
  | [], _ :: _ => false
  | '%' :: ps, [] => likeMatch ps []
  | '%' :: ps, t :: ts => likeMatch ps (t :: ts) || likeMatch ('%' :: ps) ts
  | '_' :: _, [] => false
  | '_' :: ps, _ :: ts => likeMatch ps ts
  | _ :: _, [] => false
  | c :: ps, t :: ts => (c == t) && likeMatch ps ts
termination_by ps ts => (ps.length, ts.length)

/-- Translation of `column.ilike(pattern)`: case-insensitive LIKE. -/
def ilike (pat text : String) : Bool :=
  likeMatch (lowerL pat.data) (lowerL text.data)

/-- The filter of `search_posts`: `title.ilike(f"%query%")` OR
`content.ilike(f"%query%")`. -/
def postMatches (q : String) (p : Post) : Bool :=
  ilike ("%" ++ q ++ "%") p.title || ilike ("%" ++ q ++ "%") p.content

def searchMatched (q : String) (s : Store) : List Post :=
  s.posts.filter (postMatches q)

/-- Body of the `search_posts` tool. -/
def search_posts_body (q : String) (s : Store) : OpResult :=
  match resolveAuthors s (searchMatched q s) with
  | none => .exc s noneAttrMsg
  | some pairs => .ok s (.str (dumpsJ (Json.obj [
      ("success", Json.bool true),
      ("query", Json.str q),
      ("result_count", Json.num pairs.length),
      ("posts", Json.arr (pairs.map (fun pa => postJson pa.1 pa.2)))])))

/-- Case-insensitive substring test via an explicit scan. -/
def startsList : List Char → List Char → Bool
  | [], _ => true
  | _ :: _, [] => false
  | a :: as, b :: bs => (a == b) && startsList as bs

def subList (p : List Char) : List Char → Bool
  | [] => p.isEmpty
  | c :: t => startsList p (c :: t) || subList p t

def containsCI (q t : String) : Bool := subList (lowerL q.data) (lowerL t.data)

/-- Modelled from the spec: the result set the spec describes for
`search_posts` — exactly the posts whose title or content contains the
query as a case-insensitive substring.  Kept separate from
`searchMatched` (which is translated from the code) so the two can be
compared. -/
def specSubstrMatches (q : String) (s : Store) : List Post :=
  s.posts.filter (fun p => containsCI q p.title || containsCI q p.content)

/-! ## The seeder (seed.py) -/

/-- The nondeterministic inputs of one `_seed_data_if_needed` run:
`Faker`-generated usernames/emails/titles/contents, `datetime` values, and
the `random.randint(1, 5)` draws (`nposts i` is the draw made for the
`i`-th user). -/
structure SeedInput where
  uname : Nat → String
  uemail : Nat → String
  utime : Nat → String
  nposts : Nat → Nat
  ptitle : Nat → Nat → String
  pcontent : Nat → Nat → String
  ptime : Nat → Nat → String

/-- The 10 users the seeder adds; `base` is the next rowid of the (empty)
users table. -/
def mkSeedUsers (si : SeedInput) (base : Nat) : List User :=
  (List.range 10).map (fun i => ⟨base + i, si.uname i, si.uemail i, si.utime i⟩)

/-- The `1..randint(1,5)` posts created for the `i`-th user. -/
def postsForUser (si : SeedInput) (i pid uid : Nat) : List Post :=
  (List.range (si.nposts i)).map
    (fun j => ⟨pid + j, si.ptitle i j, si.pcontent i j, si.ptime i j, some uid⟩)

/-- The nested post-creation loop: users from index `i` on (with rowids
`ubase + i`), posts getting consecutive rowids from `pid`. -/
def seedPostsLoop (si : SeedInput) (ubase : Nat) : Nat → Nat → Nat → List Post
  | _, _, 0 => []
  | i, pid, fuel + 1 =>
      postsForUser si i pid (ubase + i) ++
        seedPostsLoop si ubase (i + 1) (pid + si.nposts i) fuel

/-- Message of the IntegrityError raised by `session.flush()` when the
generated usernames or emails collide on the UNIQUE columns. -/
def integrityMsg : String := "(sqlite3.IntegrityError) UNIQUE constraint failed"

/-- Body of `_seed_data_if_needed`: skip when users exist; otherwise add
10 users, flush (assigning rowids and checking the UNIQUE constraints on
username/email — the table is empty, so only in-batch collisions can
fail), then add 1..5 posts per user. -/
def seed_data_if_needed_body (si : SeedInput) (s : Store) : OpResult :=
  if s.users.length > 0 then .ok s (.bool false)
  else
    let newUsers := mkSeedUsers si (maxUserId s.users + 1)
    if (newUsers.map (fun u => u.username)).Nodup ∧
        (newUsers.map (fun u => u.email)).Nodup then
      let newPosts := seedPostsLoop si (maxUserId s.users + 1) 0 (maxPostId s.posts + 1) 10
      .ok ⟨s.users ++ newUsers, s.posts ++ newPosts⟩ (.bool true)
    else
      .exc ⟨s.users ++ newUsers, s.posts⟩ integrityMsg

/-- Translation of `seed_database`: `create_tables()` (a schema no-op on the embedded
state) followed by the wrapped `_seed_data_if_needed()` with a
wrapper-owned session. -/
def seed_database (si : SeedInput) (db : Store) : Store × String :=
  db_operation commitOk (seed_data_if_needed_body si) db

/-! ## The repository's wrapped operations, as one enumeration -/

inductive RepoOp where
  | getAllUsers
  | getUserProfile (user_id : Nat)
  | getAllPosts
  | getPostById (post_id : Nat)
  | createUser (username email created_at : String)
  | createPost (title content : String) (user_id : Nat) (created_at : String)
  | searchPosts (q : String)
  | seed (si : SeedInput)

def runOp : RepoOp → Store → OpResult
  | .getAllUsers => get_all_users_body
  | .getUserProfile uid => get_user_profile_body uid
  | .getAllPosts => get_all_posts_body
  | .getPostById pid => get_post_by_id_body pid
  | .createUser un em ts => create_user_body un em ts
  | .createPost t c uid ts => create_post_body t c uid ts
  | .searchPosts q => search_posts_body q
  | .seed si => seed_data_if_needed_body si

/-- An invocation of a wrapped operation without a caller-supplied
session (how every call site in the repository invokes them). -/
def runWrapped (op : RepoOp) (db : Store) : Store × String :=
  db_operation commitOk (runOp op) db

/-! ## Envelope shape of wrapper outputs -/

/-- A structured success/error envelope as the app serializes it: the
JSON text of an object whose first key is "success", or the JSON text of
the one-field error object. -/
def envStr (j : String) : Prop :=
  (∃ v rest, j = dumpsJ (Json.obj (("success", v) :: rest))) ∨
  (∃ m, j = errorJson m)

/-- A wrapped function's normal return value whose string case is an
envelope. -/
def EnvelopeVal (r : PyVal) : Prop :=
  ∀ j, r = .str j → envStr j

theorem errorJson_envStr (m : String) : envStr (errorJson m) :=
  Or.inr ⟨m, rfl⟩

theorem wrap_envelope (f : Store → OpResult) (db : Store)
    (h : ∀ s r, f db = .ok s r → EnvelopeVal r) :
    envStr (db_operation commitOk f db).2 := by
  cases hf : f db with
  | exc s m =>
    simp only [db_operation, hf]
    exact errorJson_envStr m
  | ok view r =>
    have hv := h view r hf
    cases r with
    | none =>
      simp only [db_operation, hf, commitOk, pyJsonify]
      exact Or.inl ⟨Json.bool true, [], rfl⟩
    | bool b =>
      simp only [db_operation, hf, commitOk, pyJsonify]
      exact Or.inl ⟨Json.bool true, [("data", Json.bool b)], rfl⟩
    | str j =>
      have hj := hv j rfl
      have hlike : isJsonLike j = true := by
        rcases hj with ⟨v, rest, rfl⟩ | ⟨m, rfl⟩
        · exact isJsonLike_dumps_obj _
        · exact isJsonLike_dumps_obj _
      simp only [db_operation, hf, commitOk, pyJsonify, hlike, if_pos]
      exact hj

theorem runOp_envelope (op : RepoOp) (db : Store) :
    ∀ s r, runOp op db = .ok s r → EnvelopeVal r := by
  intro s r heq j hj
  cases op with
  | getAllUsers =>
    simp only [runOp, get_all_users_body, OpResult.ok.injEq] at heq
    rw [← heq.2] at hj
    cases hj
    exact Or.inl ⟨_, _, rfl⟩
  | getUserProfile uid =>
    simp only [runOp, get_user_profile_body] at heq
    cases hfind : db.users.find? (fun u => u.id == uid) with
    | none =>
      rw [hfind] at heq
      simp only [OpResult.ok.injEq] at heq
      rw [← heq.2] at hj
      cases hj
      exact Or.inr ⟨_, rfl⟩
    | some u =>
      rw [hfind] at heq
      simp only [OpResult.ok.injEq] at heq
      rw [← heq.2] at hj
      cases hj
      exact Or.inl ⟨_, _, rfl⟩
  | getAllPosts =>
    simp only [runOp, get_all_posts_body] at heq
    cases hres : resolveAuthors db db.posts with
    | none => rw [hres] at heq; cases heq
    | some pairs =>
      rw [hres] at heq
      simp only [OpResult.ok.injEq] at heq
      rw [← heq.2] at hj
      cases hj
      exact Or.inl ⟨_, _, rfl⟩
  | getPostById pid =>
    simp only [runOp, get_post_by_id_body] at heq
    cases hfind : db.posts.find? (fun p => p.id == pid) with
    | none =>
      rw [hfind] at heq
      simp only [OpResult.ok.injEq] at heq
      rw [← heq.2] at hj
      cases hj
      exact Or.inr ⟨_, rfl⟩
    | some p =>
      rw [hfind] at heq
      dsimp only at heq
      cases hauth : authorOf db p with
      | none => rw [hauth] at heq; cases heq
      | some a =>
        rw [hauth] at heq
        simp only [OpResult.ok.injEq] at heq
        rw [← heq.2] at hj
        cases hj
        exact Or.inl ⟨_, _, rfl⟩
  | createUser un em ts =>
    simp only [runOp, create_user_body] at heq
    cases hfind : db.users.find? (fun u => u.username == un || u.email == em) with
    | none =>
      rw [hfind] at heq
      simp only [OpResult.ok.injEq] at heq
      rw [← heq.2] at hj
      cases hj
      exact Or.inl ⟨_, _, rfl⟩
    | some u =>
      rw [hfind] at heq
      simp only [OpResult.ok.injEq] at heq
      rw [← heq.2] at hj
      cases hj
      exact Or.inr ⟨_, rfl⟩
  | createPost t c uid ts =>
    simp only [runOp, create_post_body] at heq
    cases hfind : db.users.find? (fun u => u.id == uid) with
    | none =>
      rw [hfind] at heq
      simp only [OpResult.ok.injEq] at heq
      rw [← heq.2] at hj
      cases hj
      exact Or.inr ⟨_, rfl⟩
    | some u =>
      rw [hfind] at heq
      simp only [OpResult.ok.injEq] at heq
      rw [← heq.2] at hj
      cases hj
      exact Or.inl ⟨_, _, rfl⟩
  | searchPosts q =>
    simp only [runOp, search_posts_body] at heq
    cases hres : resolveAuthors db (searchMatched q db) with
    | none => rw [hres] at heq; cases heq
    | some pairs =>
      rw [hres] at heq
      simp only [OpResult.ok.injEq] at heq
      rw [← heq.2] at hj
      cases hj
      exact Or.inl ⟨_, _, rfl⟩
  | seed si =>
    simp only [runOp, seed_data_if_needed_body] at heq
    by_cases hnz : db.users.length > 0
    · rw [if_pos hnz] at heq
      simp only [OpResult.ok.injEq] at heq
      rw [← heq.2] at hj
      cases hj
    · rw [if_neg hnz] at heq
      by_cases hnd : ((mkSeedUsers si (maxUserId db.users + 1)).map (fun u => u.username)).Nodup ∧
          ((mkSeedUsers si (maxUserId db.users + 1)).map (fun u => u.email)).Nodup
      · rw [if_pos hnd] at heq
        simp only [OpResult.ok.injEq] at heq
        rw [← heq.2] at hj
        cases hj
      · rw [if_neg hnd] at heq
        cases heq

/-! ## Claim theorems: the wrapper (C1, C2, C3, C10) -/

/-- A wrapped function body that adds a user and then raises, used to
instantiate the universally quantified wrapped call in the wrapper
claims. -/
def probeBody : Store → OpResult :=
  fun s => .exc ⟨s.users ++ [User.mk 1 "alice" "a@example.com" "t0"], s.posts⟩ "boom"

def emptyStore : Store := ⟨[], []⟩

/-- C1: every invocation of a `db_operation`-wrapped function — with the
session opened by the wrapper or supplied by the caller, and whether or
not the wrapped call raises — yields a structured JSON envelope string;
the wrapper is a total function into strings, so no exception propagates,
and when the wrapped call raises with message `m` the returned value is
the JSON encoding of the error object with message `m`. -/
theorem C1_wrapper_total_envelope :
    (∀ (commit : Store → Option String) (f : Store → OpResult) (db s' : Store) (m : String),
        f db = .exc s' m → (db_operation commit f db).2 = errorJson m) ∧
    (∀ (f : Store → OpResult) (db sess s' : Store) (m : String),
        f sess = .exc s' m → (db_operation_ext f db sess).2.2 = errorJson m) ∧
    (∀ (op : RepoOp) (db : Store), envStr (runWrapped op db).2) := by
  refine ⟨?_, ?_, ?_⟩
  · intro commit f db s' m hf
    simp [db_operation, hf]
  · intro f db sess s' m hf
    simp [db_operation_ext, hf]
  · intro op db
    exact wrap_envelope (runOp op) db (runOp_envelope op db)

theorem C1_wrapper_total_envelope_witness :
    (db_operation commitOk probeBody emptyStore).2 = errorJson "boom" ∧
    envStr (runWrapped RepoOp.getAllUsers emptyStore).2 :=
  ⟨C1_wrapper_total_envelope.1 commitOk probeBody emptyStore
      ⟨[User.mk 1 "alice" "a@example.com" "t0"], []⟩ "boom" rfl,
   C1_wrapper_total_envelope.2.2 RepoOp.getAllUsers emptyStore⟩

/-- C2 counterexample: an invocation with a caller-supplied session in
which the wrapped call adds a user and then raises.  The wrapper returns
the error envelope but performs no rollback: the partial write is still
pending in the caller's session, refuting the claim that every raising
invocation — including those with a caller-supplied session — is rolled
back. -/
theorem C2_counterexample :
    db_operation_ext probeBody emptyStore emptyStore
      = (emptyStore, Store.mk [User.mk 1 "alice" "a@example.com" "t0"] [],
         errorJson "boom") ∧
    Store.mk [User.mk 1 "alice" "a@example.com" "t0"] [] ≠ emptyStore := by
  exact ⟨rfl, by decide⟩

/-- C2 amended: when the wrapped function raises, the wrapper rolls the
transaction back and returns the error envelope only if the wrapper
itself opened the session (the committed database is left unchanged, so
no partial writes persist); when the caller supplied the session, the
error envelope is still returned but no rollback is performed — the
session is left exactly as the raise left it, pending writes included. -/
theorem C2_rollback_scope :
    (∀ (commit : Store → Option String) (f : Store → OpResult) (db s' : Store) (m : String),
        f db = .exc s' m → db_operation commit f db = (db, errorJson m)) ∧
    (∀ (f : Store → OpResult) (db sess s' : Store) (m : String),
        f sess = .exc s' m → db_operation_ext f db sess = (db, s', errorJson m)) := by
  refine ⟨?_, ?_⟩
  · intro commit f db s' m hf
    simp [db_operation, hf]
  · intro f db sess s' m hf
    simp [db_operation_ext, hf]

theorem C2_rollback_scope_witness :
    db_operation commitOk probeBody emptyStore = (emptyStore, errorJson "boom") ∧
    db_operation_ext probeBody emptyStore emptyStore
      = (emptyStore, Store.mk [User.mk 1 "alice" "a@example.com" "t0"] [],
         errorJson "boom") :=
  ⟨C2_rollback_scope.1 commitOk probeBody emptyStore
      ⟨[User.mk 1 "alice" "a@example.com" "t0"], []⟩ "boom" rfl,
   C2_rollback_scope.2 probeBody emptyStore emptyStore
      ⟨[User.mk 1 "alice" "a@example.com" "t0"], []⟩ "boom" rfl⟩

/-- C3: on a normal return the wrapper commits exactly when it opened the
session (wrapper-owned: the committed database becomes the session view;
caller-supplied: the committed database is untouched), and serializes the
return value as the claim states: an envelope string is passed through
unchanged, `None` becomes the bare success object, and any other
(non-empty) value is wrapped as success data. -/
theorem C3_normal_return :
    (∀ (f : Store → OpResult) (db view : Store) (r : PyVal),
        f db = .ok view r → db_operation commitOk f db = (view, pyJsonify r)) ∧
    (∀ (f : Store → OpResult) (db sess : Store), (db_operation_ext f db sess).1 = db) ∧
    (∀ fs : List (String × Json), pyJsonify (.str (dumpsJ (Json.obj fs))) = dumpsJ (Json.obj fs)) ∧
    (pyJsonify .none = dumpsJ (Json.obj [("success", Json.bool true)])) ∧
    (∀ b, pyJsonify (.bool b) =
        dumpsJ (Json.obj [("success", Json.bool true), ("data", Json.bool b)])) ∧
    (∀ j : String, isJsonLike j = false → pyJsonify (.str j) =
        dumpsJ (Json.obj [("success", Json.bool true), ("data", Json.str j)])) := by
  refine ⟨?_, ?_, ?_, rfl, fun b => rfl, ?_⟩
  · intro f db view r hf
    simp [db_operation, hf, commitOk]
  · intro f db sess
    cases hf : f sess <;> simp [db_operation_ext, hf]
  · intro fs
    simp [pyJsonify, isJsonLike_dumps_obj]
  · intro j hj
    simp [pyJsonify, hj]

theorem C3_normal_return_witness :
    db_operation commitOk (fun s => OpResult.ok s PyVal.none) emptyStore
      = (emptyStore, pyJsonify PyVal.none) ∧
    pyJsonify (.str (dumpsJ (Json.obj [("error", Json.str "x")])))
      = dumpsJ (Json.obj [("error", Json.str "x")]) :=
  ⟨C3_normal_return.1 (fun s => OpResult.ok s PyVal.none) emptyStore emptyStore
      PyVal.none rfl,
   C3_normal_return.2.2.1 [("error", Json.str "x")]⟩

/-- C10: when the wrapper opened the session, the body returned normally,
and the commit raises with message `m`, the wrapper rolls back (the
committed database is unchanged) and returns the error envelope instead
of the body's value. -/
theorem C10_commit_failure (commit : Store → Option String) (f : Store → OpResult)
    (db view : Store) (r : PyVal) (m : String)
    (hf : f db = .ok view r) (hc : commit view = some m) :
    db_operation commit f db = (db, errorJson m) := by
  simp [db_operation, hf, hc]

theorem C10_commit_failure_witness :
    db_operation (fun _ => some "commit failed") (fun s => OpResult.ok s PyVal.none)
      emptyStore = (emptyStore, errorJson "commit failed") :=
  C10_commit_failure (fun _ => some "commit failed") (fun s => OpResult.ok s PyVal.none)
    emptyStore emptyStore PyVal.none "commit failed" rfl rfl

/-! ## Claim theorems: create_user and create_post (C4, C5) -/

/-- A wrapped body that returned a `json.dumps` object string: the
wrapper commits the view and passes the string through. -/
theorem wrapped_ok_obj (f : Store → OpResult) (s view : Store)
    (fs : List (String × Json))
    (hf : f s = .ok view (.str (dumpsJ (Json.obj fs)))) :
    db_operation commitOk f s = (view, dumpsJ (Json.obj fs)) := by
  simp [db_operation, hf, commitOk, pyJsonify, isJsonLike_dumps_obj]

/-- C4: `create_user` returns the duplicate error envelope and inserts
nothing when the username or email collides with an existing user, and
otherwise inserts exactly one user and returns the success envelope with
the generated id, username, email and creation timestamp. -/
theorem C4_create_user (s : Store) (username email ts : String) :
    ((∃ u ∈ s.users, u.username = username ∨ u.email = email) →
      db_operation commitOk (create_user_body username email ts) s
        = (s, dumpsJ (Json.obj [("error", Json.str "Username or email already exists")]))) ∧
    ((∀ u ∈ s.users, u.username ≠ username ∧ u.email ≠ email) →
      db_operation commitOk (create_user_body username email ts) s
        = (⟨s.users ++ [User.mk (maxUserId s.users + 1) username email ts], s.posts⟩,
           dumpsJ (Json.obj [("success", Json.bool true),
             ("user", Json.obj [("id", Json.num (maxUserId s.users + 1)),
               ("username", Json.str username), ("email", Json.str email),
               ("created_at", Json.str ts)])]))) := by
  constructor
  · intro h
    have hsome : (s.users.find? (fun u => u.username == username || u.email == email)).isSome := by
      rw [List.find?_isSome]
      obtain ⟨u, hu, hor⟩ := h
      exact ⟨u, hu, by rcases hor with h1 | h1 <;> simp [h1]⟩
    obtain ⟨u₀, hfind⟩ := Option.isSome_iff_exists.mp hsome
    apply wrapped_ok_obj
    simp only [create_user_body, hfind]
  · intro h
    have hnone : s.users.find? (fun u => u.username == username || u.email == email) = none := by
      rw [List.find?_eq_none]
      intro u hu
      have := h u hu
      simp [this.1, this.2]
    apply wrapped_ok_obj
    simp only [create_user_body, hnone]
    norm_cast

theorem C4_create_user_witness :
    db_operation commitOk (create_user_body "bob" "bob@x.com" "t1")
        (Store.mk [User.mk 1 "bob" "old@x.com" "t0"] [])
      = (Store.mk [User.mk 1 "bob" "old@x.com" "t0"] [],
         dumpsJ (Json.obj [("error", Json.str "Username or email already exists")])) ∧
    db_operation commitOk (create_user_body "carol" "carol@x.com" "t1")
        (Store.mk [User.mk 1 "bob" "old@x.com" "t0"] [])
      = (⟨[User.mk 1 "bob" "old@x.com" "t0"] ++
            [User.mk (maxUserId [User.mk 1 "bob" "old@x.com" "t0"] + 1) "carol" "carol@x.com" "t1"], []⟩,
         dumpsJ (Json.obj [("success", Json.bool true),
           ("user", Json.obj [("id", Json.num (maxUserId [User.mk 1 "bob" "old@x.com" "t0"] + 1)),
             ("username", Json.str "carol"), ("email", Json.str "carol@x.com"),
             ("created_at", Json.str "t1")])])) :=
  ⟨(C4_create_user (Store.mk [User.mk 1 "bob" "old@x.com" "t0"] []) "bob" "bob@x.com" "t1").1
      ⟨User.mk 1 "bob" "old@x.com" "t0", by decide, by left; rfl⟩,
   (C4_create_user (Store.mk [User.mk 1 "bob" "old@x.com" "t0"] []) "carol" "carol@x.com" "t1").2
      (by decide)⟩

/-- C5: `create_post` returns the not-found error envelope and inserts
nothing when no user has the given id, and otherwise inserts exactly one
post (with its foreign key set to that user) and returns the success
envelope containing the created record together with the author's id and
username. -/
theorem C5_create_post (s : Store) (title content : String) (user_id : Nat) (ts : String) :
    ((∀ u ∈ s.users, u.id ≠ user_id) →
      db_operation commitOk (create_post_body title content user_id ts) s
        = (s, dumpsJ (Json.obj [("error",
            Json.str ("User with ID " ++ toString user_id ++ " not found"))]))) ∧
    (∀ u₀, s.users.find? (fun u => u.id == user_id) = some u₀ →
      db_operation commitOk (create_post_body title content user_id ts) s
        = (⟨s.users, s.posts ++ [Post.mk (maxPostId s.posts + 1) title content ts (some user_id)]⟩,
           dumpsJ (Json.obj [("success", Json.bool true),
             ("post", postJson (Post.mk (maxPostId s.posts + 1) title content ts (some user_id)) u₀)]))) := by
  constructor
  · intro h
    have hnone : s.users.find? (fun u => u.id == user_id) = none := by
      rw [List.find?_eq_none]
      intro u hu
      simp [h u hu]
    apply wrapped_ok_obj
    simp only [create_post_body, hnone]
  · intro u₀ hfind
    apply wrapped_ok_obj
    simp only [create_post_body, hfind]

theorem C5_create_post_witness :
    db_operation commitOk (create_post_body "T" "C" 7 "t2")
        (Store.mk [User.mk 1 "bob" "b@x.com" "t0"] [])
      = (Store.mk [User.mk 1 "bob" "b@x.com" "t0"] [],
         dumpsJ (Json.obj [("error", Json.str ("User with ID " ++ toString 7 ++ " not found"))])) ∧
    db_operation commitOk (create_post_body "T" "C" 1 "t2")
        (Store.mk [User.mk 1 "bob" "b@x.com" "t0"] [])
      = (⟨[User.mk 1 "bob" "b@x.com" "t0"],
          [] ++ [Post.mk (maxPostId [] + 1) "T" "C" "t2" (some 1)]⟩,
         dumpsJ (Json.obj [("success", Json.bool true),
           ("post", postJson (Post.mk (maxPostId [] + 1) "T" "C" "t2" (some 1))
             (User.mk 1 "bob" "b@x.com" "t0"))])) :=
  ⟨(C5_create_post (Store.mk [User.mk 1 "bob" "b@x.com" "t0"] []) "T" "C" 7 "t2").1
      (by decide),
   (C5_create_post (Store.mk [User.mk 1 "bob" "b@x.com" "t0"] []) "T" "C" 1 "t2").2
      (User.mk 1 "bob" "b@x.com" "t0") (by decide)⟩

/-! ## Referential integrity of stores and author resolution -/

/-- Every post's foreign key references an existing user — the property
the creation-time checks and the seeder establish. -/
def WFStore (s : Store) : Prop :=
  ∀ p ∈ s.posts, ∃ u ∈ s.users, p.user_id = some u.id

theorem resolveAuthors_total {s : Store} :
    ∀ {l : List Post}, (∀ p ∈ l, ∃ u ∈ s.users, p.user_id = some u.id) →
      ∃ pairs, resolveAuthors s l = some pairs ∧ pairs.map Prod.fst = l ∧
        pairs.length = l.length := by
  intro l
  induction l with
  | nil => intro _; exact ⟨[], rfl, rfl, rfl⟩
  | cons p ps ih =>
    intro h
    obtain ⟨u, hu, hpu⟩ := h p (List.mem_cons_self p ps)
    have hsome : (s.users.find? (fun v => v.id == u.id)).isSome := by
      rw [List.find?_isSome]
      exact ⟨u, hu, by simp⟩
    obtain ⟨a, ha⟩ := Option.isSome_iff_exists.mp hsome
    have hauth : authorOf s p = some a := by simp [authorOf, hpu, ha]
    obtain ⟨pairs, hres, hmap, hlen⟩ := ih (fun p' hp' => h p' (List.mem_cons_of_mem _ hp'))
    exact ⟨(p, a) :: pairs, by simp [resolveAuthors, hauth, hres],
      by simp [hmap], by simp [hlen]⟩

/-! ## LIKE patterns versus plain substring matching -/

/-- The query contains no SQL LIKE wildcard characters. -/
def noWild (l : List Char) : Prop := '%' ∉ l ∧ '_' ∉ l

theorem asciiLower_pct {c : Char} (h : asciiLower c = '%') : c = '%' := by
  unfold asciiLower at h
  cases hf : upperToLower.find? (fun p => p.1 == c) with
  | none => rw [hf] at h; exact h
  | some p =>
    rw [hf] at h
    have hall : ∀ x ∈ upperToLower, x.2 ≠ '%' := by decide
    exact absurd h (hall p (List.mem_of_find?_eq_some hf))

theorem asciiLower_und {c : Char} (h : asciiLower c = '_') : c = '_' := by
  unfold asciiLower at h
  cases hf : upperToLower.find? (fun p => p.1 == c) with
  | none => rw [hf] at h; exact h
  | some p =>
    rw [hf] at h
    have hall : ∀ x ∈ upperToLower, x.2 ≠ '_' := by decide
    exact absurd h (hall p (List.mem_of_find?_eq_some hf))

theorem noWild_lowerL {l : List Char} (h : noWild l) : noWild (lowerL l) := by
  constructor
  · intro hmem
    obtain ⟨c, hc, hlc⟩ := List.mem_map.mp hmem
    exact h.1 (asciiLower_pct hlc ▸ hc)
  · intro hmem
    obtain ⟨c, hc, hlc⟩ := List.mem_map.mp hmem
    exact h.2 (asciiLower_und hlc ▸ hc)

theorem startsList_iff : ∀ (p l : List Char), startsList p l = true ↔ p <+: l := by
  intro p
  induction p with
  | nil => intro l; simp [startsList]
  | cons a as ih =>
    intro l
    cases l with
    | nil => simp [startsList]
    | cons b bs => simp [startsList, ih bs, List.cons_prefix_cons]

theorem subList_iff (p : List Char) : ∀ l, subList p l = true ↔ p <:+: l := by
  intro l
  induction l with
  | nil => simp [subList, List.isEmpty_iff]
  | cons c t ih => simp [subList, startsList_iff, ih, List.infix_cons_iff]

theorem likeMatch_noWild {p : List Char} (hp : noWild p) :
    ∀ ts, likeMatch p ts = true ↔ p = ts := by
  induction p with
  | nil => intro ts; cases ts <;> simp [likeMatch]
  | cons c ps ih =>
    have hc1 : c ≠ '%' := fun h => hp.1 (by rw [← h]; exact List.mem_cons_self c ps)
    have hc2 : c ≠ '_' := fun h => hp.2 (by rw [← h]; exact List.mem_cons_self c ps)
    have hps : noWild ps :=
      ⟨fun h => hp.1 (List.mem_cons_of_mem _ h), fun h => hp.2 (List.mem_cons_of_mem _ h)⟩
    intro ts
    cases ts with
    | nil => simp [likeMatch, hc1, hc2]
    | cons t ts' => simp [likeMatch, hc1, hc2, ih hps ts']

theorem likeMatch_pct_single : ∀ ts, likeMatch ['%'] ts = true := by
  intro ts
  induction ts with
  | nil => simp [likeMatch]
  | cons t ts ih => simp [likeMatch, ih]

theorem likeMatch_append_pct {p : List Char} (hp : noWild p) :
    ∀ ts, likeMatch (p ++ ['%']) ts = true ↔ p <+: ts := by
  induction p with
  | nil => intro ts; simp [likeMatch_pct_single ts]
  | cons c ps ih =>
    have hc1 : c ≠ '%' := fun h => hp.1 (by rw [← h]; exact List.mem_cons_self c ps)
    have hc2 : c ≠ '_' := fun h => hp.2 (by rw [← h]; exact List.mem_cons_self c ps)
    have hps : noWild ps :=
      ⟨fun h => hp.1 (List.mem_cons_of_mem _ h), fun h => hp.2 (List.mem_cons_of_mem _ h)⟩
    intro ts
    cases ts with
    | nil => simp [likeMatch, hc1, hc2]
    | cons t ts' => simp [likeMatch, hc1, hc2, ih hps ts', List.cons_prefix_cons]

theorem likeMatch_pct_cons (ps : List Char) :
    ∀ ts, likeMatch ('%' :: ps) ts = true ↔ ∃ u, u <:+ ts ∧ likeMatch ps u = true := by
  intro ts
  induction ts with
  | nil => simp [likeMatch]
  | cons t ts' ih =>
    have harm : likeMatch ('%' :: ps) (t :: ts')
        = (likeMatch ps (t :: ts') || likeMatch ('%' :: ps) ts') := by
      simp [likeMatch]
    rw [harm, Bool.or_eq_true, ih]
    constructor
    · rintro (h | ⟨u, hu, h⟩)
      · exact ⟨t :: ts', List.suffix_rfl, h⟩
      · exact ⟨u, List.suffix_cons_iff.mpr (Or.inr hu), h⟩
    · rintro ⟨u, hsuf, h⟩
      rcases List.suffix_cons_iff.mp hsuf with rfl | hu
      · exact Or.inl h
      · exact Or.inr ⟨u, hu, h⟩

theorem likeMatch_eq_subList {p : List Char} (hp : noWild p) (ts : List Char) :
    likeMatch ('%' :: (p ++ ['%'])) ts = subList p ts := by
  have h1 : likeMatch ('%' :: (p ++ ['%'])) ts = true ↔ p <:+: ts := by
    rw [likeMatch_pct_cons]
    constructor
    · rintro ⟨u, hu, hm⟩
      exact List.infix_iff_prefix_suffix.mpr ⟨u, (likeMatch_append_pct hp u).mp hm, hu⟩
    · intro h
      obtain ⟨u, hpu, hus⟩ := List.infix_iff_prefix_suffix.mp h
      exact ⟨u, hus, (likeMatch_append_pct hp u).mpr hpu⟩
  have h2 := subList_iff p ts
  cases hb : subList p ts with
  | false =>
    cases hlb : likeMatch ('%' :: (p ++ ['%'])) ts with
    | false => rfl
    | true =>
      have := h2.mpr (h1.mp hlb)
      rw [hb] at this
      exact absurd this (by decide)
  | true => exact h1.mpr (h2.mp hb)

theorem ilike_pattern_substr {q : String} (hq : noWild q.data) (t : String) :
    ilike ("%" ++ q ++ "%") t = containsCI q t := by
  have hdata : ("%" ++ q ++ "%").data = '%' :: (q.data ++ ['%']) := by
    rw [String.data_append, String.data_append]
    rfl
  have hlow : lowerL ('%' :: (q.data ++ ['%'])) = '%' :: (lowerL q.data ++ ['%']) := by
    have ha : asciiLower '%' = '%' := by decide
    simp [lowerL, ha]
  unfold ilike containsCI
  rw [hdata, hlow]
  exact likeMatch_eq_subList (noWild_lowerL hq) (lowerL t.data)

theorem searchMatched_eq_spec {q : String} (hq : noWild q.data) (s : Store) :
    searchMatched q s = specSubstrMatches q s := by
  unfold searchMatched specSubstrMatches
  apply List.filter_congr
  intro p _
  unfold postMatches
  rw [ilike_pattern_substr hq, ilike_pattern_substr hq]

/-! ## Claim theorems: search_posts (C7) -/

/-- A store with one user and one post titled "abc" (content "xyz"),
used to evaluate the search filter on the wildcard query. -/
def cx7Store : Store :=
  ⟨[User.mk 1 "u" "e" "t"], [Post.mk 1 "abc" "xyz" "t" (some 1)]⟩

/-- A store with a post whose foreign key references no user. -/
def cx7Orphan : Store := ⟨[], [Post.mk 1 "abc" "xyz" "t" (some 5)]⟩

/-- C7 counterexample: on the query consisting of the single character
`%`, the code's LIKE-based filter matches the post titled "abc", but that
post does not contain `%` as a substring of its title or content, so the
result set is not the set of case-insensitive substring matches the claim
describes; and on a store holding a post whose foreign key references no
user, the matching post's author resolution raises, so the call returns
an error envelope, not a success envelope. -/
theorem C7_counterexample :
    searchMatched "%" cx7Store = [Post.mk 1 "abc" "xyz" "t" (some 1)] ∧
    specSubstrMatches "%" cx7Store = [] ∧
    searchMatched "%" cx7Store ≠ specSubstrMatches "%" cx7Store ∧
    runWrapped (RepoOp.searchPosts "a") cx7Orphan = (cx7Orphan, errorJson noneAttrMsg) := by
  have h1 : ilike "%%%" "abc" = true := by
    have hd1 : ("%%%" : String).data = ['%', '%', '%'] := rfl
    have hd2 : ("abc" : String).data = ['a', 'b', 'c'] := rfl
    have hl1 : lowerL ['%', '%', '%'] = ['%', '%', '%'] := by decide
    have hl2 : lowerL ['a', 'b', 'c'] = ['a', 'b', 'c'] := by decide
    simp only [ilike, hd1, hd2, hl1, hl2]
    simp [likeMatch]
  have hpm : postMatches "%" (Post.mk 1 "abc" "xyz" "t" (some 1)) = true := by
    simp [postMatches]
    exact Or.inl h1
  have hsm : searchMatched "%" cx7Store = [Post.mk 1 "abc" "xyz" "t" (some 1)] := by
    simp [searchMatched, cx7Store, List.filter_cons, hpm]
  have hsp : specSubstrMatches "%" cx7Store = [] := by decide
  have h2 : ilike "%a%" "abc" = true := by
    have hd1 : ("%a%" : String).data = ['%', 'a', '%'] := rfl
    have hd2 : ("abc" : String).data = ['a', 'b', 'c'] := rfl
    have hl1 : lowerL ['%', 'a', '%'] = ['%', 'a', '%'] := by decide
    have hl2 : lowerL ['a', 'b', 'c'] = ['a', 'b', 'c'] := by decide
    simp only [ilike, hd1, hd2, hl1, hl2]
    simp [likeMatch]
  have hpm2 : postMatches "a" (Post.mk 1 "abc" "xyz" "t" (some 5)) = true := by
    simp [postMatches]
    exact Or.inl h2
  have hsm2 : searchMatched "a" cx7Orphan = [Post.mk 1 "abc" "xyz" "t" (some 5)] := by
    simp [searchMatched, cx7Orphan, List.filter_cons, hpm2]
  have hres : resolveAuthors cx7Orphan (searchMatched "a" cx7Orphan) = none := by
    rw [hsm2]
    decide
  have hbody : search_posts_body "a" cx7Orphan = .exc cx7Orphan noneAttrMsg := by
    simp only [search_posts_body, hres]
  refine ⟨hsm, hsp, by rw [hsm, hsp]; simp, ?_⟩
  simp [runWrapped, runOp, db_operation, hbody]

/-- C7 amended: for every store whose posts all reference existing users
and every query containing no SQL LIKE wildcard characters, search_posts
returns a success envelope (never an error) whose posts list is exactly
the posts whose title or content contains the query as a case-insensitive
substring and whose result_count is the length of that list.  (For
queries containing a wildcard the filter follows SQL LIKE semantics
instead, and on a store with a post whose foreign key is dangling the
body raises and the wrapper returns an error envelope.) -/
theorem C7_search_substring (q : String) (s : Store)
    (hq : noWild q.data) (hwf : WFStore s) :
    ∃ pairs : List (Post × User),
      resolveAuthors s (searchMatched q s) = some pairs ∧
      pairs.map Prod.fst = specSubstrMatches q s ∧
      runWrapped (RepoOp.searchPosts q) s
        = (s, dumpsJ (Json.obj [
            ("success", Json.bool true),
            ("query", Json.str q),
            ("result_count", Json.num ((specSubstrMatches q s).length : Int)),
            ("posts", Json.arr (pairs.map (fun pa => postJson pa.1 pa.2)))])) := by
  have hsub : ∀ p ∈ searchMatched q s, ∃ u ∈ s.users, p.user_id = some u.id :=
    fun p hp => hwf p (List.mem_of_mem_filter hp)
  obtain ⟨pairs, hres, hmap, hlen⟩ := resolveAuthors_total hsub
  refine ⟨pairs, hres, ?_, ?_⟩
  · rw [hmap, searchMatched_eq_spec hq]
  · have hl : (pairs.length : Int) = ((specSubstrMatches q s).length : Int) := by
      rw [hlen, searchMatched_eq_spec hq]
    apply wrapped_ok_obj
    show runOp (RepoOp.searchPosts q) s = _
    simp only [runOp, search_posts_body, hres, hl]

theorem C7_search_substring_witness :
    ∃ pairs : List (Post × User),
      resolveAuthors cx7Store (searchMatched "a" cx7Store) = some pairs ∧
      pairs.map Prod.fst = specSubstrMatches "a" cx7Store ∧
      runWrapped (RepoOp.searchPosts "a") cx7Store
        = (cx7Store, dumpsJ (Json.obj [
            ("success", Json.bool true),
            ("query", Json.str "a"),
            ("result_count", Json.num ((specSubstrMatches "a" cx7Store).length : Int)),
            ("posts", Json.arr (pairs.map (fun pa => postJson pa.1 pa.2)))])) :=
  C7_search_substring "a" cx7Store (by unfold noWild; decide)
    (by intro p hp; fin_cases hp; exact ⟨User.mk 1 "u" "e" "t", by decide, rfl⟩)

/-! ## Claim theorems: seeding (C6, C9) -/

/-- The seed run's generated usernames and emails are pairwise distinct,
so the flush after the 10 inserts does not violate the UNIQUE constraints
(the users table is empty when the inserts happen). -/
def seedOk (si : SeedInput) : Prop :=
  ((mkSeedUsers si 1).map (fun u => u.username)).Nodup ∧
  ((mkSeedUsers si 1).map (fun u => u.email)).Nodup

/-- Seeding a store that already has users is a data no-op returning the
serialized `False`. -/
theorem seed_skip {si : SeedInput} {s : Store} (h : s.users ≠ []) :
    seed_database si s
      = (s, dumpsJ (Json.obj [("success", Json.bool true), ("data", Json.bool false)])) := by
  have hlen : s.users.length > 0 := List.length_pos.mpr h
  have hbody : seed_data_if_needed_body si s = .ok s (.bool false) := by
    simp [seed_data_if_needed_body, hlen]
  simp [seed_database, db_operation, hbody, commitOk, pyJsonify]

/-- Seeding an empty store with collision-free generated data inserts the
10 users and their posts in one committed transaction. -/
theorem seed_fill {si : SeedInput} {s : Store} (hempty : s.users = [])
    (hok : seedOk si) :
    seed_database si s
      = (⟨mkSeedUsers si 1, s.posts ++ seedPostsLoop si 1 0 (maxPostId s.posts + 1) 10⟩,
         dumpsJ (Json.obj [("success", Json.bool true), ("data", Json.bool true)])) := by
  obtain ⟨us, ps⟩ := s
  simp only [Store.mk.injEq] at hempty ⊢
  subst hempty
  have hbody : seed_data_if_needed_body si ⟨[], ps⟩
      = .ok ⟨mkSeedUsers si 1, ps ++ seedPostsLoop si 1 0 (maxPostId ps + 1) 10⟩ (.bool true) := by
    simp only [seed_data_if_needed_body]
    rw [if_neg (by simp)]
    rw [if_pos]
    · simp [maxUserId]
    · simpa [maxUserId] using hok
  simp [seed_database, db_operation, hbody, commitOk, pyJsonify]

theorem mkSeedUsers_length (si : SeedInput) (base : Nat) :
    (mkSeedUsers si base).length = 10 := by
  simp [mkSeedUsers]

/-- Digits for building small distinct names without `Nat.repr`. -/
def numStr : Nat → String
  | 0 => "0" | 1 => "1" | 2 => "2" | 3 => "3" | 4 => "4"
  | 5 => "5" | 6 => "6" | 7 => "7" | 8 => "8" | _ => "9"

/-- A Faker run in which every generated username collides. -/
def siDup : SeedInput :=
  ⟨fun _ => "u", fun _ => "e", fun _ => "t", fun _ => 1,
   fun _ _ => "T", fun _ _ => "C", fun _ _ => "t"⟩

/-- A Faker run with pairwise distinct usernames and emails. -/
def siGood : SeedInput :=
  ⟨fun i => "u" ++ numStr i, fun i => "e" ++ numStr i, fun _ => "t", fun _ => 1,
   fun _ _ => "T", fun _ _ => "C", fun _ _ => "t"⟩

/-- C6 counterexample: when the Faker draws collide (here all usernames
equal), the flush raises, the wrapper rolls back, and the store stays
empty; a second invocation with distinct draws then seeds 10 users — so
invoking `seed_database` twice does not always yield the same user count
as invoking it once. -/
theorem C6_counterexample :
    ((seed_database siDup emptyStore).1).users.length = 0 ∧
    ((seed_database siGood (seed_database siDup emptyStore).1).1).users.length = 10 ∧
    ((seed_database siGood (seed_database siDup emptyStore).1).1).users.length
      ≠ ((seed_database siDup emptyStore).1).users.length := by
  refine ⟨?_, ?_, ?_⟩ <;> decide

/-- C6 amended: provided the generated usernames and emails of the first
invocation are pairwise distinct (so its flush cannot raise on the UNIQUE
constraints), invoking `seed_database` twice in succession yields the
same user count as invoking it once; and whenever at least one user
record exists, seeding performs no inserts at all — the store is returned
unchanged with the skip response.  (Without that proviso the first
invocation can fail, leave the store empty, and a later invocation can
then seed, which the counterexample exhibits.) -/
theorem C6_seed_idempotent :
    (∀ (s : Store) (si si' : SeedInput), seedOk si →
      ((seed_database si' (seed_database si s).1).1).users.length
        = ((seed_database si s).1).users.length) ∧
    (∀ (s : Store) (si : SeedInput), s.users ≠ [] →
      seed_database si s
        = (s, dumpsJ (Json.obj [("success", Json.bool true), ("data", Json.bool false)]))) := by
  refine ⟨?_, fun s si h => seed_skip h⟩
  intro s si si' hok
  have hfix : ∀ s' : Store, s'.users ≠ [] → (seed_database si' s').1 = s' := by
    intro s' h
    rw [seed_skip h]
  by_cases hempty : s.users = []
  · rw [seed_fill hempty hok]
    rw [hfix _ (by simp [mkSeedUsers])]
  · rw [seed_skip hempty]
    rw [seed_skip hempty]

theorem C6_seed_idempotent_witness :
    ((seed_database siGood (seed_database siGood emptyStore).1).1).users.length
      = ((seed_database siGood emptyStore).1).users.length ∧
    seed_database siGood (Store.mk [User.mk 1 "u" "e" "t"] [])
      = (Store.mk [User.mk 1 "u" "e" "t"] [],
         dumpsJ (Json.obj [("success", Json.bool true), ("data", Json.bool false)])) :=
  ⟨C6_seed_idempotent.1 emptyStore siGood siGood (by unfold seedOk; decide),
   C6_seed_idempotent.2 (Store.mk [User.mk 1 "u" "e" "t"] []) siGood (by simp)⟩

/-- The post-creation loop decomposes into one block per remaining user. -/
theorem seedPostsLoop_blocks (si : SeedInput) (ubase : Nat) :
    ∀ (fuel i pid : Nat), ∃ blocks : List (List Post),
      seedPostsLoop si ubase i pid fuel = concatAll blocks ∧
      blocks.length = fuel ∧
      ∀ j (hj : j < blocks.length), ∃ pid',
        blocks.get ⟨j, hj⟩ = postsForUser si (i + j) pid' (ubase + (i + j)) := by
  intro fuel
  induction fuel with
  | zero =>
    intro i pid
    exact ⟨[], rfl, rfl, fun j hj => absurd hj (by simp)⟩
  | succ n ih =>
    intro i pid
    obtain ⟨blocks, heq, hlen, hblk⟩ := ih (i + 1) (pid + si.nposts i)
    refine ⟨postsForUser si i pid (ubase + i) :: blocks, ?_, by simp [hlen], ?_⟩
    · simp [seedPostsLoop, concatAll, heq]
    · intro j hj
      cases j with
      | zero => exact ⟨pid, by simp⟩
      | succ j' =>
        have hj' : j' < blocks.length := by
          simpa [Nat.succ_lt_succ_iff] using hj
        obtain ⟨pid', hp⟩ := hblk j' hj'
        refine ⟨pid', ?_⟩
        rw [show i + (j' + 1) = (i + 1) + j' from by omega]
        exact hp

theorem postsForUser_length (si : SeedInput) (i pid uid : Nat) :
    (postsForUser si i pid uid).length = si.nposts i := by
  simp [postsForUser]

theorem postsForUser_user_id (si : SeedInput) (i pid uid : Nat) :
    ∀ p ∈ postsForUser si i pid uid, p.user_id = some uid := by
  intro p hp
  obtain ⟨j, _, rfl⟩ := List.mem_map.mp hp
  rfl

/-- C9 counterexample: with colliding generated usernames, seeding an
empty store creates 0 users, not 10: the flush raises and the wrapper
rolls the whole transaction back. -/
theorem C9_counterexample :
    ((seed_database siDup emptyStore).1).users.length = 0 ∧
    ¬ ((seed_database siDup emptyStore).1).users.length = 10 := by
  refine ⟨?_, ?_⟩ <;> decide

/-- C9 amended: provided the generated usernames and emails are pairwise
distinct (so the flush succeeds), seeding a store with no user records
creates exactly 10 users (ids 1..10, all present before any post is
created — the posts reference the already-flushed user ids) and then,
for each of the 10 users in order, between 1 and 5 posts (the randint
draw for that user), all committed in the single wrapped transaction. -/
theorem C9_seed_populates (s : Store) (si : SeedInput)
    (hempty : s.users = []) (hok : seedOk si)
    (hrange : ∀ i, i < 10 → 1 ≤ si.nposts i ∧ si.nposts i ≤ 5) :
    ((seed_database si s).1).users = mkSeedUsers si 1 ∧
    ((seed_database si s).1).users.length = 10 ∧
    ∃ blocks : List (List Post),
      ((seed_database si s).1).posts = s.posts ++ concatAll blocks ∧
      blocks.length = 10 ∧
      ∀ j (hj : j < blocks.length),
        (blocks.get ⟨j, hj⟩).length = si.nposts j ∧
        1 ≤ (blocks.get ⟨j, hj⟩).length ∧
        (blocks.get ⟨j, hj⟩).length ≤ 5 ∧
        ∀ p ∈ blocks.get ⟨j, hj⟩, p.user_id = some (1 + j) := by
  rw [seed_fill hempty hok]
  obtain ⟨blocks, heq, hlen, hblk⟩ := seedPostsLoop_blocks si 1 10 0 (maxPostId s.posts + 1)
  refine ⟨rfl, mkSeedUsers_length si 1, blocks, by simp [heq], hlen, ?_⟩
  intro j hj
  have hj10 : j < 10 := by rw [← hlen]; exact hj
  obtain ⟨pid', hp⟩ := hblk j hj
  have hp' : blocks.get ⟨j, hj⟩ = postsForUser si j pid' (1 + j) := by
    simpa using hp
  rw [hp']
  refine ⟨postsForUser_length si j pid' (1 + j), ?_, ?_,
    postsForUser_user_id si j pid' (1 + j)⟩
  · rw [postsForUser_length]
    exact (hrange j hj10).1
  · rw [postsForUser_length]
    exact (hrange j hj10).2

theorem C9_seed_populates_witness :
    ((seed_database siGood emptyStore).1).users = mkSeedUsers siGood 1 ∧
    ((seed_database siGood emptyStore).1).users.length = 10 ∧
    ∃ blocks : List (List Post),
      ((seed_database siGood emptyStore).1).posts = emptyStore.posts ++ concatAll blocks ∧
      blocks.length = 10 ∧
      ∀ j (hj : j < blocks.length),
        (blocks.get ⟨j, hj⟩).length = siGood.nposts j ∧
        1 ≤ (blocks.get ⟨j, hj⟩).length ∧
        (blocks.get ⟨j, hj⟩).length ≤ 5 ∧
        ∀ p ∈ blocks.get ⟨j, hj⟩, p.user_id = some (1 + j) :=
  C9_seed_populates emptyStore siGood rfl (by unfold seedOk; decide)
    (fun i _ => by norm_num [siGood])

/-! ## Claim theorems: post authorship (C8) -/

theorem seedPostsLoop_user_id (si : SeedInput) (ubase : Nat) :
    ∀ fuel i pid p, p ∈ seedPostsLoop si ubase i pid fuel →
      ∃ j, j < fuel ∧ p.user_id = some (ubase + (i + j)) := by
  intro fuel
  induction fuel with
  | zero => intro i pid p hp; simp [seedPostsLoop] at hp
  | succ n ih =>
    intro i pid p hp
    simp only [seedPostsLoop] at hp
    rcases List.mem_append.mp hp with h | h
    · exact ⟨0, by omega, by simpa using postsForUser_user_id si i pid (ubase + i) p h⟩
    · obtain ⟨j, hj, hid⟩ := ih (i + 1) (pid + si.nposts i) p h
      refine ⟨j + 1, by omega, ?_⟩
      rw [hid]
      congr 1
      omega

theorem mkSeedUsers_mem_id (si : SeedInput) (b j : Nat) (hj : j < 10) :
    ∃ u ∈ mkSeedUsers si b, u.id = b + j := by
  refine ⟨⟨b + j, si.uname j, si.uemail j, si.utime j⟩, ?_, rfl⟩
  simp only [mkSeedUsers, List.mem_map, List.mem_range]
  exact ⟨j, hj, rfl⟩

theorem runWrapped_fst (op : RepoOp) (s : Store) :
    (runWrapped op s).1 = s ∨
    ∃ view r, runOp op s = .ok view r ∧ (runWrapped op s).1 = view := by
  cases hf : runOp op s with
  | exc s' m => left; simp [runWrapped, db_operation, hf]
  | ok view r =>
    right
    exact ⟨view, r, rfl, by simp [runWrapped, db_operation, hf, commitOk]⟩

theorem runOp_preserves_WF (op : RepoOp) (s view : Store) (r : PyVal)
    (hwf : WFStore s) (h : runOp op s = .ok view r) : WFStore view := by
  cases op with
  | getAllUsers =>
    simp only [runOp, get_all_users_body, OpResult.ok.injEq] at h
    rw [← h.1]; exact hwf
  | getUserProfile uid =>
    simp only [runOp, get_user_profile_body] at h
    cases hfind : s.users.find? (fun u => u.id == uid) with
    | none => rw [hfind] at h; simp only [OpResult.ok.injEq] at h; rw [← h.1]; exact hwf
    | some u => rw [hfind] at h; simp only [OpResult.ok.injEq] at h; rw [← h.1]; exact hwf
  | getAllPosts =>
    simp only [runOp, get_all_posts_body] at h
    cases hres : resolveAuthors s s.posts with
    | none => rw [hres] at h; cases h
    | some pairs => rw [hres] at h; simp only [OpResult.ok.injEq] at h; rw [← h.1]; exact hwf
  | getPostById pid =>
    simp only [runOp, get_post_by_id_body] at h
    cases hfind : s.posts.find? (fun p => p.id == pid) with
    | none => rw [hfind] at h; simp only [OpResult.ok.injEq] at h; rw [← h.1]; exact hwf
    | some p =>
      rw [hfind] at h
      dsimp only at h
      cases hauth : authorOf s p with
      | none => rw [hauth] at h; cases h
      | some a => rw [hauth] at h; simp only [OpResult.ok.injEq] at h; rw [← h.1]; exact hwf
  | createUser un em ts =>
    simp only [runOp, create_user_body] at h
    cases hfind : s.users.find? (fun u => u.username == un || u.email == em) with
    | none =>
      rw [hfind] at h
      simp only [OpResult.ok.injEq] at h
      rw [← h.1]
      intro p hp
      obtain ⟨u', hu', hpu⟩ := hwf p hp
      exact ⟨u', List.mem_append_left _ hu', hpu⟩
    | some u => rw [hfind] at h; simp only [OpResult.ok.injEq] at h; rw [← h.1]; exact hwf
  | createPost t c uid ts =>
    simp only [runOp, create_post_body] at h
    cases hfind : s.users.find? (fun u => u.id == uid) with
    | none => rw [hfind] at h; simp only [OpResult.ok.injEq] at h; rw [← h.1]; exact hwf
    | some u =>
      rw [hfind] at h
      simp only [OpResult.ok.injEq] at h
      rw [← h.1]
      intro p hp
      rcases List.mem_append.mp hp with hold | hnew
      · exact hwf p hold
      · have hpid : u.id = uid := by
          have := List.find?_some hfind
          simpa using this
        have hpeq : p = Post.mk (maxPostId s.posts + 1) t c ts (some uid) := by
          simpa using hnew
        exact ⟨u, List.mem_of_find?_eq_some hfind, by rw [hpeq, hpid]⟩
  | searchPosts q =>
    simp only [runOp, search_posts_body] at h
    cases hres : resolveAuthors s (searchMatched q s) with
    | none => rw [hres] at h; cases h
    | some pairs => rw [hres] at h; simp only [OpResult.ok.injEq] at h; rw [← h.1]; exact hwf
  | seed si =>
    simp only [runOp, seed_data_if_needed_body] at h
    by_cases hnz : s.users.length > 0
    · rw [if_pos hnz] at h; simp only [OpResult.ok.injEq] at h; rw [← h.1]; exact hwf
    · rw [if_neg hnz] at h
      by_cases hnd : (((mkSeedUsers si (maxUserId s.users + 1)).map (fun u => u.username)).Nodup ∧
          ((mkSeedUsers si (maxUserId s.users + 1)).map (fun u => u.email)).Nodup)
      · rw [if_pos hnd] at h
        simp only [OpResult.ok.injEq] at h
        rw [← h.1]
        intro p hp
        rcases List.mem_append.mp hp with hold | hnew
        · obtain ⟨u', hu', hpu⟩ := hwf p hold
          exact ⟨u', List.mem_append_left _ hu', hpu⟩
        · obtain ⟨j, hj, hid⟩ := seedPostsLoop_user_id si (maxUserId s.users + 1) 10 0
            (maxPostId s.posts + 1) p hnew
          obtain ⟨u', hu', hui⟩ := mkSeedUsers_mem_id si (maxUserId s.users + 1) j hj
          refine ⟨u', List.mem_append_right _ hu', ?_⟩
          rw [hid, hui]
          simp
      · rw [if_neg hnd] at h; cases h

/-- C8 counterexample: the `user_id` column of the `posts` table is
declared without `nullable=False` in models.py, so SQLAlchemy defaults it
to nullable — the claim that the foreign-key column is declared non-null
is false of the declared schema. -/
theorem C8_counterexample :
    postColumns.find? (fun c => c.name == "user_id")
      = some (ColumnSpec.mk "user_id" true false false (some "users.id")) ∧
    ¬ (∀ c ∈ postColumns, c.name = "user_id" → c.nullable = false) := by
  exact ⟨by decide, by decide⟩

/-- C8 amended: the `user_id` foreign-key column is declared nullable
(SQLAlchemy's default, since models.py does not set `nullable=False`);
nevertheless every post the application writes has a non-null `user_id`
referencing an existing user — `create_post` checks existence before the
insert and the seeder links posts to the users it just created — so the
property that every post has exactly one author is an invariant preserved
by every wrapped operation, not a schema-enforced constraint. -/
theorem C8_author_integrity :
    ((postColumns.find? (fun c => c.name == "user_id")).map (fun c => c.nullable)
        = some true) ∧
    (∀ (op : RepoOp) (s : Store), WFStore s → WFStore (runWrapped op s).1) := by
  refine ⟨by decide, ?_⟩
  intro op s hwf
  rcases runWrapped_fst op s with heq | ⟨view, r, hok, heq⟩
  · rw [heq]; exact hwf
  · rw [heq]; exact runOp_preserves_WF op s view r hwf hok

theorem C8_author_integrity_witness :
    WFStore (runWrapped (RepoOp.createPost "T" "C" 1 "t2") cx7Store).1 :=
  C8_author_integrity.2 (RepoOp.createPost "T" "C" 1 "t2") cx7Store
    (by intro p hp; fin_cases hp; exact ⟨User.mk 1 "u" "e" "t", by decide, rfl⟩)

end Tutorial
